import Mathlib

/-!
Verification of the DesktopCommanderMCP command-session manager against its
natural-language specification.

The repository sources available under src/ are the MCP server registration
and dispatch layer (src/src/server.ts) and the installer that rewrites the
Claude desktop configuration (src/setup-claude-server.js).  Those two files
are embedded directly below.  The terminal manager itself (Session Registry,
Execution Controller, Output Reader, Termination Controller, Command
Validator) is not part of the sources; following the spec it is modelled
here from the spec text, and every such definition is marked
"Modelled from the spec:".
-/

namespace DCM

/-- Session lifecycle status. Modelled from the spec: status is one of
Running, Completed, Terminated, Failed. -/
inductive Status where
  | running
  | completed
  | terminated
  | failed
deriving DecidableEq, Repr

/-- Whether a status is terminal (Completed, Terminated or Failed). -/
def Status.isTerminal : Status → Bool
  | Status.running => false
  | _ => true

/-- Modelled from the spec: one tracked spawned command with its identity,
accumulated output buffers and per-buffer delivery cursors (the Session value
object of spec section 3; the terminal manager is not under src/). -/
structure Session where
  sid : Nat
  command : String
  pid : Nat
  startedAt : Nat
  status : Status
  exitCode : Option Int
  stdoutBuf : List Char
  stderrBuf : List Char
  stdoutCursor : Nat
  stderrCursor : Nat
deriving DecidableEq, Repr

/-- Result shape of one readOutput call. -/
structure ReadResult where
  newStdout : List Char
  newStderr : List Char
  rstatus : Status
  rexitCode : Option Int
deriving DecidableEq, Repr

/-- Modelled from the spec: a readOutput call on a session returns the slice
of each buffer strictly after the current cursor and advances each cursor to
the current end of its buffer. -/
def readOutputSession (s : Session) : Session × ReadResult :=
  ({ s with stdoutCursor := s.stdoutBuf.length, stderrCursor := s.stderrBuf.length },
   { newStdout := s.stdoutBuf.drop s.stdoutCursor,
     newStderr := s.stderrBuf.drop s.stderrCursor,
     rstatus := s.status,
     rexitCode := s.exitCode })

/-- One event on a single session: the process produces output chunks, or a
caller performs a readOutput call. -/
inductive OutOp where
  | produce (oc ec : List Char)
  | read
deriving DecidableEq, Repr

/-- Run a sequence of produce/read events on a session, collecting the read
results delivered to callers in order. -/
def runOutOps : Session → List OutOp → Session × List ReadResult
  | s, [] => (s, [])
  | s, OutOp.produce oc ec :: ops =>
      runOutOps { s with stdoutBuf := s.stdoutBuf ++ oc, stderrBuf := s.stderrBuf ++ ec } ops
  | s, OutOp.read :: ops =>
      let p := readOutputSession s
      let q := runOutOps p.1 ops
      (q.1, p.2 :: q.2)

/-- The Session Registry state: the sequence of tracked sessions. -/
abbrev Registry := List Session

/-- Look a session up by its id. -/
def findSession (r : Registry) (id : Nat) : Option Session :=
  r.find? (fun s => s.sid == id)

/-- Largest session id currently in the registry. -/
def maxSid (r : Registry) : Nat :=
  r.foldr (fun s m => max s.sid m) 0

/-- Modelled from the spec: session ids increase monotonically and are never
reused, so a fresh id is strictly above every id in the registry. -/
def freshId (r : Registry) : Nat := maxSid r + 1

/-- Shape of the Running result returned by execute on timeout. -/
structure RunningResult where
  sessionId : Nat
  stdoutSoFar : List Char
  stderrSoFar : List Char
deriving DecidableEq, Repr

/-- The Session registered when an execute call hits its timeout: fresh id,
Running, buffers holding the output accumulated so far, cursors at zero. -/
def freshSession (r : Registry) (cmd : String) (pid now : Nat)
    (oc ec : List Char) : Session :=
  { sid := freshId r, command := cmd, pid := pid, startedAt := now,
    status := Status.running, exitCode := none,
    stdoutBuf := oc, stderrBuf := ec,
    stdoutCursor := 0, stderrCursor := 0 }

/-- Modelled from the spec: when timeoutMs elapses before the spawned process
exits, execute registers a fresh Running session that keeps the output
accumulated so far and returns a Running result carrying the fresh session id
and exactly that accumulated output (Execution Controller, spec 4.2). -/
def executeTimeout (r : Registry) (cmd : String) (pid now : Nat)
    (oc ec : List Char) : Registry × RunningResult :=
  (r ++ [freshSession r cmd pid now oc ec],
   { sessionId := freshId r, stdoutSoFar := oc, stderrSoFar := ec })

/-- Modelled from the spec: the process-exit callback sets a terminal status
plus the exit code, one-shot: it only fires on a Running session. -/
def exitCallback (r : Registry) (id : Nat) (code : Int) : Registry :=
  r.map (fun s =>
    if s.sid = id ∧ s.status = Status.running then
      { s with status := if code = 0 then Status.completed else Status.failed,
               exitCode := some code }
    else s)

/-- Error raised by session operations on an unknown id. -/
inductive TermError where
  | notFound
deriving DecidableEq, Repr

/-- Modelled from the spec: terminate fails with NotFound on an unknown id,
is an alreadyFinished no-op on a terminal session, and otherwise forces the
Running session to Terminated (Termination Controller, spec 4.4). -/
def terminate (r : Registry) (id : Nat) : Except TermError (Registry × Bool) :=
  match findSession r id with
  | none => Except.error TermError.notFound
  | some s =>
      if s.status.isTerminal then Except.ok (r, true)
      else
        Except.ok
          (r.map (fun t => if t.sid = id then { t with status := Status.terminated } else t),
           false)

/-- Modelled from the spec: killProcess reconciles any tracked Running
session backed by the killed pid to Terminated (Process Inspector, spec 4.6). -/
def killProcessReconcile (r : Registry) (p : Nat) : Registry :=
  r.map (fun s =>
    if s.pid = p ∧ s.status = Status.running then { s with status := Status.terminated }
    else s)

/-- Modelled from the spec: output produced by the live process is appended
to the buffers of its Running session as it arrives. -/
def produceOutput (r : Registry) (id : Nat) (oc ec : List Char) : Registry :=
  r.map (fun s =>
    if s.sid = id ∧ s.status = Status.running then
      { s with stdoutBuf := s.stdoutBuf ++ oc, stderrBuf := s.stderrBuf ++ ec }
    else s)

/-- Modelled from the spec: readOutput on the registry looks the session up,
delivers the undelivered slices and advances the cursors of that session. -/
def readOutputReg (r : Registry) (id : Nat) : Except TermError (Registry × ReadResult) :=
  match findSession r id with
  | none => Except.error TermError.notFound
  | some s =>
      Except.ok
        (r.map (fun t => if t.sid = id then (readOutputSession t).1 else t),
         (readOutputSession s).2)

/-- One registry-level event: process exit callback, terminate call,
kill-by-pid reconciliation, output production, a readOutput call, or an
execute call that hits its timeout. -/
inductive RegOp where
  | exitCb (id : Nat) (code : Int)
  | term (id : Nat)
  | killPid (p : Nat)
  | produce (id : Nat) (oc ec : List Char)
  | readOut (id : Nat)
  | execTimeout (cmd : String) (pid now : Nat) (oc ec : List Char)
deriving DecidableEq, Repr

/-- Apply one registry-level event (the registry after the event). -/
def applyRegOp (r : Registry) : RegOp → Registry
  | RegOp.exitCb id code => exitCallback r id code
  | RegOp.term id =>
      match terminate r id with
      | Except.ok p => p.1
      | Except.error _ => r
  | RegOp.killPid p => killProcessReconcile r p
  | RegOp.produce id oc ec => produceOutput r id oc ec
  | RegOp.readOut id =>
      match readOutputReg r id with
      | Except.ok p => p.1
      | Except.error _ => r
  | RegOp.execTimeout cmd pid now oc ec => (executeTimeout r cmd pid now oc ec).1

/-- Apply a sequence of registry-level events. -/
def applyRegOps (r : Registry) (ops : List RegOp) : Registry :=
  ops.foldl applyRegOp r

/-- Events that can end the session with id id or pid p: its exit callback,
a terminate call on it, or a kill of its pid. -/
def endsSession (id p : Nat) : RegOp → Bool
  | RegOp.exitCb i _ => i == id
  | RegOp.term i => i == id
  | RegOp.killPid q => q == p
  | _ => false

/-- Entry of the listSessions snapshot. -/
structure SessionInfo where
  sid : Nat
  command : String
  pid : Nat
  elapsed : Nat
  sstatus : Status
deriving DecidableEq, Repr

/-- Projection of a session into its listSessions entry. -/
def sessionInfoOf (now : Nat) (s : Session) : SessionInfo :=
  { sid := s.sid, command := s.command, pid := s.pid,
    elapsed := now - s.startedAt, sstatus := s.status }

/-- Modelled from the spec: listSessions returns the point-in-time snapshot
of exactly the sessions whose status is Running (spec 4.5). -/
def listSessions (r : Registry) (now : Nat) : List SessionInfo :=
  (r.filter (fun s => decide (s.status = Status.running))).map (sessionInfoOf now)

/-- Split a character sequence into chunks at the shell-chaining operators,
carrying the reversed current chunk in the accumulator. -/
def splitChain : List Char → List Char → List (List Char)
  | [], acc => [acc.reverse]
  | '&' :: '&' :: rest, acc => acc.reverse :: splitChain rest []
  | '|' :: '|' :: rest, acc => acc.reverse :: splitChain rest []
  | '|' :: rest, acc => acc.reverse :: splitChain rest []
  | ';' :: rest, acc => acc.reverse :: splitChain rest []
  | '\n' :: rest, acc => acc.reverse :: splitChain rest []
  | c :: rest, acc => splitChain rest (c :: acc)

/-- Modelled from the spec: split a command line on the shell-chaining
operators into candidate sub-commands (Command Validator, spec 4.1). -/
def splitSubCommands (line : String) : List (List Char) :=
  splitChain line.toList []

/-- Modelled from the spec: the leading executable token of a sub-command. -/
def leadingToken (sub : List Char) : List Char :=
  (sub.dropWhile (fun c => c == ' ')).takeWhile (fun c => c != ' ')

/-- Modelled from the spec: strip any path portion from a token, keeping the
segment after the last slash or backslash. -/
def stripPath (tok : List Char) : List Char :=
  tok.foldl (fun acc c => if c = '/' ∨ c = '\\' then [] else acc ++ [c]) []

/-- Case-insensitive normal form of a token. -/
def lowerChars (l : List Char) : List Char := l.map Char.toLower

/-- Modelled from the spec: a command line is blocked when the leading
executable token of any single chained sub-command, stripped of its path,
matches a blocked pattern case-insensitively. -/
def commandBlocked (line : String) (blocked : List String) : Bool :=
  (splitSubCommands line).any (fun sub =>
    blocked.any (fun p => lowerChars (stripPath (leadingToken sub)) == lowerChars p.toList))

/-- Modelled from the spec: execute consults the Validator first and invokes
the spawn interface only when the command line is allowed; a blocked line is
rejected with a ValidationError before any process is spawned. -/
def executeGate {α : Type} (r : Registry) (blocked : List String) (line : String)
    (spawn : Registry → String → Registry × α) : Except String (Registry × α) :=
  if commandBlocked line blocked then Except.error "ValidationError: command blocked"
  else Except.ok (spawn r line)

/-- One content item of a tool-call result, as built in src/src/server.ts. -/
structure ToolContent where
  ctype : String
  text : String
deriving DecidableEq, Repr

/-- Result value returned to the tool-call transport by the call handler in
src/src/server.ts. -/
structure ServerResult where
  content : List ToolContent
  isError : Bool
deriving DecidableEq, Repr

/-- Environment of dedicated handlers the dispatch switch of
src/src/server.ts delegates to; each may raise (modelled as Except). -/
structure Handlers (α : Type) where
  getConfig : Except String ServerResult
  setConfigValue : α → Except String ServerResult
  handleExecuteCommand : α → Except String ServerResult
  handleReadOutput : α → Except String ServerResult
  handleForceTerminate : α → Except String ServerResult
  handleListSessions : Except String ServerResult
  handleListProcesses : Except String ServerResult
  handleKillProcess : α → Except String ServerResult
  handleReadFile : α → Except String ServerResult
  handleReadMultipleFiles : α → Except String ServerResult
  handleWriteFile : α → Except String ServerResult
  handleCreateDirectory : α → Except String ServerResult
  handleListDirectory : α → Except String ServerResult
  handleMoveFile : α → Except String ServerResult
  handleSearchFiles : α → Except String ServerResult
  handleSearchCode : α → Except String ServerResult
  handleGetFileInfo : α → Except String ServerResult
  handleEditBlock : α → Except String ServerResult

/-- Tool names exposed by the ListTools handler of src/src/server.ts, in
source order. -/
def serverToolNames : List String :=
  ["get_config", "set_config_value", "read_file", "read_multiple_files",
   "write_file", "create_directory", "list_directory", "move_file",
   "search_files", "search_code", "get_file_info", "edit_block",
   "execute_command", "read_output", "force_terminate", "list_sessions",
   "list_processes", "kill_process"]

/-- Tool names with a dedicated case in the dispatch switch of the
CallToolRequestSchema handler of src/src/server.ts, in source order. -/
def dispatchedToolNames : List String :=
  ["get_config", "set_config_value", "execute_command", "read_output",
   "force_terminate", "list_sessions", "list_processes", "kill_process",
   "read_file", "read_multiple_files", "write_file", "create_directory",
   "list_directory", "move_file", "search_files", "search_code",
   "get_file_info", "edit_block"]

/-- The dispatch switch of src/src/server.ts: the two configuration cases
keep their own inner catch, the remaining cases delegate to the dedicated
handler, and an unknown name yields the unknown-tool error value. -/
def dispatchToolCall {α : Type} (h : Handlers α) (name : String) (args : α) :
    Except String ServerResult :=
  if name = "get_config" then
    match h.getConfig with
    | Except.ok r => Except.ok r
    | Except.error _ =>
        Except.ok { content := [{ ctype := "text", text := "Error: Failed to get configuration" }],
                    isError := true }
  else if name = "set_config_value" then
    match h.setConfigValue args with
    | Except.ok r => Except.ok r
    | Except.error _ =>
        Except.ok { content := [{ ctype := "text", text := "Error: Failed to set configuration value" }],
                    isError := true }
  else if name = "execute_command" then h.handleExecuteCommand args
  else if name = "read_output" then h.handleReadOutput args
  else if name = "force_terminate" then h.handleForceTerminate args
  else if name = "list_sessions" then h.handleListSessions
  else if name = "list_processes" then h.handleListProcesses
  else if name = "kill_process" then h.handleKillProcess args
  else if name = "read_file" then h.handleReadFile args
  else if name = "read_multiple_files" then h.handleReadMultipleFiles args
  else if name = "write_file" then h.handleWriteFile args
  else if name = "create_directory" then h.handleCreateDirectory args
  else if name = "list_directory" then h.handleListDirectory args
  else if name = "move_file" then h.handleMoveFile args
  else if name = "search_files" then h.handleSearchFiles args
  else if name = "search_code" then h.handleSearchCode args
  else if name = "get_file_info" then h.handleGetFileInfo args
  else if name = "edit_block" then h.handleEditBlock args
  else
    Except.ok { content := [{ ctype := "text", text := "Error: Unknown tool: " ++ name }],
                isError := true }

/-- The CallToolRequestSchema handler of src/src/server.ts: the dispatch
switch wrapped in the outer catch that turns any raised error into an
isError result value carrying the error message. -/
def handleCallTool {α : Type} (h : Handlers α) (name : String) (args : α) : ServerResult :=
  match dispatchToolCall h name args with
  | Except.ok r => r
  | Except.error e =>
      { content := [{ ctype := "text", text := "Error: " ++ e }], isError := true }

/-- JSON values, as stored in the Claude desktop configuration file rewritten
by src/setup-claude-server.js; objects are key-value sequences. -/
inductive JValue where
  | null
  | bool (b : Bool)
  | num (n : Int)
  | str (s : String)
  | arr (xs : List JValue)
  | obj (fields : List (String × JValue))

/-- JavaScript truthiness of a JSON value (undefined is encoded by reading a
missing key as null). -/
def jTruthy : JValue → Bool
  | JValue.null => false
  | JValue.bool b => b
  | JValue.num n => decide (n ≠ 0)
  | JValue.str s => decide (s ≠ "")
  | JValue.arr _ => true
  | JValue.obj _ => true

/-- Value of a key in a JSON object. -/
def lookupKey (o : List (String × JValue)) (k : String) : Option JValue :=
  (o.find? (fun p => p.1 == k)).map Prod.snd

/-- JavaScript property assignment on an object: replace the value in place
when the key exists, otherwise append the key at the end. -/
def setKey : List (String × JValue) → String → JValue → List (String × JValue)
  | [], k, v => [(k, v)]
  | p :: rest, k, v => if p.1 = k then (k, v) :: rest else p :: setKey rest k v

/-- JavaScript delete of a property. -/
def delKey (o : List (String × JValue)) (k : String) : List (String × JValue) :=
  o.filter (fun p => p.1 != k)

/-- The configuration update performed by setup in src/setup-claude-server.js
lines 292 to 306: reset mcpServers to an empty object when falsy, delete
the old desktopCommander entry when truthy, assign the desktop-commander
entry, and keep everything else of the parsed configuration object.  A truthy
non-object mcpServers value falls through with the configuration content
unchanged, which is what the script produces there: for a primitive value the
strict-mode property assignment of line 303 throws and the catch in setup
returns without writing the file, and for an array the named property set by
line 303 is dropped again by JSON.stringify at line 306, so in both cases the
written configuration content equals the pre-existing one. -/
def setupUpdateConfig (config : List (String × JValue)) (serverCfg : JValue) :
    List (String × JValue) :=
  let mcpVal := (lookupKey config "mcpServers").getD JValue.null
  let config1 := if jTruthy mcpVal then config else setKey config "mcpServers" (JValue.obj [])
  match (lookupKey config1 "mcpServers").getD JValue.null with
  | JValue.obj m =>
      let m1 :=
        if jTruthy ((lookupKey m "desktopCommander").getD JValue.null) then
          delKey m "desktopCommander"
        else m
      let m2 := setKey m1 "desktop-commander" serverCfg
      setKey config1 "mcpServers" (JValue.obj m2)
  | _ => config1

/-- The desktopCommander-style entry of the mcpServers object of a
configuration, read through the same lookups the script uses. -/
def mcpEntry (config : List (String × JValue)) (k : String) : Option JValue :=
  match lookupKey config "mcpServers" with
  | some (JValue.obj m) => lookupKey m k
  | _ => none

/-- The key-value fields the setup rewrite operates on, read from the
pre-existing mcpServers value: an object yields its fields, a falsy value
(absent keys read as null) is reset to an empty object by line 293, and a
truthy non-object yields none: there the rewrite installs nothing and the
configuration content stays unchanged. -/
def mcpFields : JValue → Option (List (String × JValue))
  | JValue.obj m => some m
  | v => if jTruthy v then none else some []

/-- Concrete session used by witnesses: freshly created, Running, empty
buffers, cursors at zero. -/
def sampleSession : Session :=
  { sid := 1, command := "sleep 30", pid := 42, startedAt := 5,
    status := Status.running, exitCode := none,
    stdoutBuf := [], stderrBuf := [], stdoutCursor := 0, stderrCursor := 0 }

/-- Concrete finished session used by witnesses. -/
def doneSession : Session :=
  { sid := 2, command := "echo hello", pid := 43, startedAt := 3,
    status := Status.completed, exitCode := some 0,
    stdoutBuf := "hello".toList, stderrBuf := [], stdoutCursor := 0, stderrCursor := 0 }

/-- Concrete single-session event trace used by witnesses. -/
def sampleOutOps : List OutOp :=
  [OutOp.produce "ab".toList "x".toList, OutOp.read, OutOp.produce "cd".toList []]

/-- Concrete registry used by witnesses. -/
def sampleReg : Registry := [sampleSession, doneSession]

/-- Concrete registry-level event trace used by witnesses; none of the events
ends the session created by the witness executeTimeout call. -/
def sampleRegOps : List RegOp :=
  [RegOp.produce 3 "ou".toList [], RegOp.readOut 3, RegOp.exitCb 2 0]

/-- Concrete successful tool result used by witnesses. -/
def demoOk : ServerResult :=
  { content := [{ ctype := "text", text := "ok" }], isError := false }

/-- Handler environment whose handlers all raise, used by witnesses. -/
def demoFailingHandlers : Handlers Unit :=
  { getConfig := Except.error "boom"
    setConfigValue := fun _ => Except.error "boom"
    handleExecuteCommand := fun _ => Except.error "boom"
    handleReadOutput := fun _ => Except.error "boom"
    handleForceTerminate := fun _ => Except.error "boom"
    handleListSessions := Except.error "boom"
    handleListProcesses := Except.error "boom"
    handleKillProcess := fun _ => Except.error "boom"
    handleReadFile := fun _ => Except.error "boom"
    handleReadMultipleFiles := fun _ => Except.error "boom"
    handleWriteFile := fun _ => Except.error "boom"
    handleCreateDirectory := fun _ => Except.error "boom"
    handleListDirectory := fun _ => Except.error "boom"
    handleMoveFile := fun _ => Except.error "boom"
    handleSearchFiles := fun _ => Except.error "boom"
    handleSearchCode := fun _ => Except.error "boom"
    handleGetFileInfo := fun _ => Except.error "boom"
    handleEditBlock := fun _ => Except.error "boom" }

/-- Handler environment whose handlers all succeed with demoOk, used by
witnesses. -/
def demoOkHandlers : Handlers Unit :=
  { getConfig := Except.ok demoOk
    setConfigValue := fun _ => Except.ok demoOk
    handleExecuteCommand := fun _ => Except.ok demoOk
    handleReadOutput := fun _ => Except.ok demoOk
    handleForceTerminate := fun _ => Except.ok demoOk
    handleListSessions := Except.ok demoOk
    handleListProcesses := Except.ok demoOk
    handleKillProcess := fun _ => Except.ok demoOk
    handleReadFile := fun _ => Except.ok demoOk
    handleReadMultipleFiles := fun _ => Except.ok demoOk
    handleWriteFile := fun _ => Except.ok demoOk
    handleCreateDirectory := fun _ => Except.ok demoOk
    handleListDirectory := fun _ => Except.ok demoOk
    handleMoveFile := fun _ => Except.ok demoOk
    handleSearchFiles := fun _ => Except.ok demoOk
    handleSearchCode := fun _ => Except.ok demoOk
    handleGetFileInfo := fun _ => Except.ok demoOk
    handleEditBlock := fun _ => Except.ok demoOk }

/-- Concrete pre-existing configuration file content used by the C10
counterexample and witness: a falsy desktopCommander entry, one unrelated
mcpServers entry, and one unrelated top-level field. -/
def cfg0 : List (String × JValue) :=
  [("theme", JValue.str "dark"),
   ("mcpServers",
     JValue.obj [("desktopCommander", JValue.bool false),
                 ("other-server", JValue.str "keep")])]

/-- Concrete pre-existing configuration whose mcpServers value is truthy but
not an object, used by the C10 counterexample and witness. -/
def cfgStr : List (String × JValue) :=
  [("mcpServers", JValue.str "oops"), ("theme", JValue.str "dark")]

/-- Concrete computed server configuration used by the C10 counterexample and
witness. -/
def scfg0 : JValue :=
  JValue.obj [("command", JValue.str "node"), ("args", JValue.arr [JValue.str "dist/index.js"])]

/-- The mcpServers object of the concrete configuration cfg1. -/
def mcp1 : List (String × JValue) :=
  [("desktopCommander", JValue.obj [("command", JValue.str "old")]),
   ("other-server", JValue.str "keep")]

/-- Concrete pre-existing configuration with a truthy desktopCommander entry,
used by the C10 witness. -/
def cfg1 : List (String × JValue) :=
  [("mcpServers", JValue.obj mcp1), ("theme", JValue.str "dark")]

/-! Theorems.  Helper lemmas are shared; each claim has exactly one theorem. -/

theorem runOutOps_invariant (ops : List OutOp) (s : Session)
    (hso : s.stdoutCursor ≤ s.stdoutBuf.length)
    (hse : s.stderrCursor ≤ s.stderrBuf.length) :
    ((runOutOps s ops).1.stdoutBuf.take (runOutOps s ops).1.stdoutCursor
        = s.stdoutBuf.take s.stdoutCursor
          ++ ((runOutOps s ops).2.map ReadResult.newStdout).flatten)
    ∧ ((runOutOps s ops).1.stderrBuf.take (runOutOps s ops).1.stderrCursor
        = s.stderrBuf.take s.stderrCursor
          ++ ((runOutOps s ops).2.map ReadResult.newStderr).flatten)
    ∧ (runOutOps s ops).1.stdoutCursor ≤ (runOutOps s ops).1.stdoutBuf.length
    ∧ (runOutOps s ops).1.stderrCursor ≤ (runOutOps s ops).1.stderrBuf.length
    ∧ s.stdoutCursor ≤ (runOutOps s ops).1.stdoutCursor
    ∧ s.stderrCursor ≤ (runOutOps s ops).1.stderrCursor := by
  induction ops generalizing s with
  | nil =>
    simp only [runOutOps, List.map_nil, List.flatten_nil, List.append_nil]
    exact ⟨trivial, trivial, hso, hse, Nat.le_refl _, Nat.le_refl _⟩
  | cons op ops ih =>
    cases op with
    | produce oc ec =>
      have h1 : s.stdoutCursor ≤ (s.stdoutBuf ++ oc).length := by
        simp only [List.length_append]; omega
      have h2 : s.stderrCursor ≤ (s.stderrBuf ++ ec).length := by
        simp only [List.length_append]; omega
      have key := ih { s with stdoutBuf := s.stdoutBuf ++ oc, stderrBuf := s.stderrBuf ++ ec } h1 h2
      simp only at key
      rw [List.take_append_of_le_length hso, List.take_append_of_le_length hse] at key
      simp only [runOutOps]
      exact key
    | read =>
      have h1 : (readOutputSession s).1.stdoutCursor ≤ (readOutputSession s).1.stdoutBuf.length := by
        simp [readOutputSession]
      have h2 : (readOutputSession s).1.stderrCursor ≤ (readOutputSession s).1.stderrBuf.length := by
        simp [readOutputSession]
      have key := ih (readOutputSession s).1 h1 h2
      simp only [readOutputSession] at key
      simp only [List.take_length] at key
      simp only [runOutOps, readOutputSession, List.map_cons, List.flatten_cons]
      refine ⟨?_, ?_, key.2.2.1, key.2.2.2.1, ?_, ?_⟩
      · rw [key.1, ← List.append_assoc, List.take_append_drop]
      · rw [key.2.1, ← List.append_assoc, List.take_append_drop]
      · exact Nat.le_trans hso key.2.2.2.2.1
      · exact Nat.le_trans hse key.2.2.2.2.2

theorem runOutOps_append (s : Session) (xs ys : List OutOp) :
    runOutOps s (xs ++ ys)
      = ((runOutOps (runOutOps s xs).1 ys).1,
         (runOutOps s xs).2 ++ (runOutOps (runOutOps s xs).1 ys).2) := by
  induction xs generalizing s with
  | nil => simp [runOutOps]
  | cons op xs ih =>
    cases op with
    | produce oc ec =>
      simp only [List.cons_append, runOutOps, List.append_eq]
      rw [ih]
    | read =>
      simp only [List.cons_append, runOutOps, List.append_eq]
      rw [ih]

/-- C1: every readOutput call returns exactly the slice of each output buffer
strictly after the current outputCursor and advances the cursor to the current
end of the buffer; consequently, over any sequence of calls on a session, no
byte is delivered twice, none is skipped, the delivered slices concatenate to
the delivered front part of the buffer in production order, and a trailing read
reconstructs the entire buffer. -/
theorem readOutput_delivers_exactly_once (s : Session) (ops : List OutOp)
    (hc0 : s.stdoutCursor = 0) (hc0e : s.stderrCursor = 0) :
    ((readOutputSession s).2.newStdout = s.stdoutBuf.drop s.stdoutCursor
      ∧ (readOutputSession s).2.newStderr = s.stderrBuf.drop s.stderrCursor
      ∧ (readOutputSession s).1.stdoutCursor = s.stdoutBuf.length
      ∧ (readOutputSession s).1.stderrCursor = s.stderrBuf.length)
    ∧ (((runOutOps s ops).2.map ReadResult.newStdout).flatten
        = (runOutOps s ops).1.stdoutBuf.take (runOutOps s ops).1.stdoutCursor)
    ∧ (((runOutOps s ops).2.map ReadResult.newStderr).flatten
        = (runOutOps s ops).1.stderrBuf.take (runOutOps s ops).1.stderrCursor)
    ∧ (((runOutOps s (ops ++ [OutOp.read])).2.map ReadResult.newStdout).flatten
        = (runOutOps s (ops ++ [OutOp.read])).1.stdoutBuf)
    ∧ (((runOutOps s (ops ++ [OutOp.read])).2.map ReadResult.newStderr).flatten
        = (runOutOps s (ops ++ [OutOp.read])).1.stderrBuf) := by
  have hso : s.stdoutCursor ≤ s.stdoutBuf.length := by rw [hc0]; exact Nat.zero_le _
  have hse : s.stderrCursor ≤ s.stderrBuf.length := by rw [hc0e]; exact Nat.zero_le _
  have inv := runOutOps_invariant ops s hso hse
  have hflat1 : ((runOutOps s ops).2.map ReadResult.newStdout).flatten
      = (runOutOps s ops).1.stdoutBuf.take (runOutOps s ops).1.stdoutCursor := by
    rw [inv.1, hc0]; simp
  have hflat2 : ((runOutOps s ops).2.map ReadResult.newStderr).flatten
      = (runOutOps s ops).1.stderrBuf.take (runOutOps s ops).1.stderrCursor := by
    rw [inv.2.1, hc0e]; simp
  refine ⟨⟨rfl, rfl, rfl, rfl⟩, hflat1, hflat2, ?_, ?_⟩
  · rw [runOutOps_append]
    simp only [runOutOps, readOutputSession, List.map_append, List.map_cons, List.map_nil,
      List.flatten_append, List.flatten_cons, List.flatten_nil, List.append_nil]
    rw [hflat1, List.take_append_drop]
  · rw [runOutOps_append]
    simp only [runOutOps, readOutputSession, List.map_append, List.map_cons, List.map_nil,
      List.flatten_append, List.flatten_cons, List.flatten_nil, List.append_nil]
    rw [hflat2, List.take_append_drop]

theorem readOutput_delivers_exactly_once_witness :
    sampleSession.stdoutCursor = 0 ∧ sampleSession.stderrCursor = 0
    ∧ (((runOutOps sampleSession (sampleOutOps ++ [OutOp.read])).2.map ReadResult.newStdout).flatten
        = (runOutOps sampleSession (sampleOutOps ++ [OutOp.read])).1.stdoutBuf) :=
  ⟨rfl, rfl, (readOutput_delivers_exactly_once sampleSession sampleOutOps rfl rfl).2.2.2.1⟩

theorem findSession_sid {r : Registry} {id : Nat} {s : Session}
    (h : findSession r id = some s) : s.sid = id := by
  unfold findSession at h
  have h2 := List.find?_some h
  simpa using h2

theorem findSession_mem {r : Registry} {id : Nat} {s : Session}
    (h : findSession r id = some s) : s ∈ r := by
  unfold findSession at h
  exact List.mem_of_find?_eq_some h

theorem findSession_map_of_sid (f : Session → Session)
    (hf : ∀ s, (f s).sid = s.sid) (r : Registry) (id : Nat) :
    findSession (r.map f) id = (findSession r id).map f := by
  unfold findSession
  rw [List.find?_map]
  have hp : ((fun s : Session => s.sid == id) ∘ f) = (fun s : Session => s.sid == id) := by
    funext s
    simp [Function.comp, hf]
  rw [hp]

theorem findSession_condMap (C : Session → Prop) [DecidablePred C] (upd : Session → Session)
    (hupd : ∀ s, (upd s).sid = s.sid) (r : Registry) (id : Nat) (s : Session)
    (h : findSession r id = some s) :
    findSession (r.map (fun t => if C t then upd t else t)) id
      = some (if C s then upd s else s) := by
  have hf : ∀ t, ((fun t => if C t then upd t else t) t).sid = t.sid := by
    intro t
    by_cases hc : C t <;> simp [hc, hupd]
  rw [findSession_map_of_sid _ hf, h]
  rfl

theorem findSession_append_left {r : Registry} {id : Nat} {s : Session}
    (h : findSession r id = some s) (r2 : Registry) :
    findSession (r ++ r2) id = some s := by
  unfold findSession at h ⊢
  rw [List.find?_append, h]
  rfl

theorem sid_le_maxSid {r : Registry} {s : Session} (h : s ∈ r) : s.sid ≤ maxSid r := by
  induction r with
  | nil => cases h
  | cons t r ih =>
    simp only [maxSid, List.foldr_cons] at *
    rcases List.mem_cons.mp h with h1 | h1
    · subst h1
      exact Nat.le_max_left _ _
    · exact Nat.le_trans (ih h1) (Nat.le_max_right _ _)

theorem findSession_freshId (r : Registry) : findSession r (freshId r) = none := by
  cases hf : findSession r (freshId r) with
  | none => rfl
  | some s =>
    exfalso
    have h1 := findSession_sid hf
    have h2 := sid_le_maxSid (findSession_mem hf)
    rw [h1] at h2
    unfold freshId at h2
    omega

theorem executeTimeout_find (r : Registry) (cmd : String) (pid now : Nat) (oc ec : List Char) :
    findSession (executeTimeout r cmd pid now oc ec).1 (freshId r)
      = some (freshSession r cmd pid now oc ec) := by
  have hnone := findSession_freshId r
  unfold findSession at hnone ⊢
  show ((r ++ [freshSession r cmd pid now oc ec]).find? (fun s => s.sid == freshId r))
      = some (freshSession r cmd pid now oc ec)
  rw [List.find?_append, hnone]
  simp [freshSession]

theorem status_not_terminal {st : Status} (h : st.isTerminal = false) : st = Status.running := by
  cases st
  · rfl
  all_goals simp [Status.isTerminal] at h

theorem applyRegOp_lookup (op : RegOp) (r : Registry) (id : Nat) (s : Session)
    (h : findSession r id = some s) :
    ∃ s2, findSession (applyRegOp r op) id = some s2
      ∧ s2.sid = s.sid ∧ s2.command = s.command ∧ s2.pid = s.pid
      ∧ (s2.status = s.status ∨ (s.status = Status.running ∧ s2.status.isTerminal = true)) := by
  cases op with
  | exitCb i code =>
    have key := findSession_condMap (fun t => t.sid = i ∧ t.status = Status.running)
      (fun t =>
        { t with
          status := (if code = 0 then Status.completed else Status.failed),
          exitCode := some code })
      (fun t => rfl) r id s h
    by_cases hc : s.sid = i ∧ s.status = Status.running
    · rw [if_pos hc] at key
      refine ⟨_, key, rfl, rfl, rfl, Or.inr ⟨hc.2, ?_⟩⟩
      by_cases h0 : code = 0 <;> simp [h0, Status.isTerminal]
    · rw [if_neg hc] at key
      exact ⟨s, key, rfl, rfl, rfl, Or.inl rfl⟩
  | term i =>
    show ∃ s2, findSession (applyRegOp r (RegOp.term i)) id = some s2 ∧ _
    cases hfi : findSession r i with
    | none =>
      simp only [applyRegOp, terminate, hfi]
      exact ⟨s, h, rfl, rfl, rfl, Or.inl rfl⟩
    | some u =>
      by_cases ht : u.status.isTerminal = true
      · simp only [applyRegOp, terminate, hfi, ht, if_pos]
        exact ⟨s, h, rfl, rfl, rfl, Or.inl rfl⟩
      · have hterm : terminate r i
            = Except.ok
              (r.map (fun t => if t.sid = i then { t with status := Status.terminated } else t),
               false) := by
          simp [terminate, hfi, ht]
        simp only [applyRegOp, hterm]
        have key := findSession_condMap (fun t => t.sid = i)
          (fun t => { t with status := Status.terminated }) (fun t => rfl) r id s h
        by_cases hc : s.sid = i
        · rw [if_pos hc] at key
          have hid : id = i := (findSession_sid h).symm.trans hc
          have hsu : u = s := by
            rw [← hid] at hfi
            rw [h] at hfi
            exact (Option.some.inj hfi).symm
          have hrun : s.status = Status.running := by
            apply status_not_terminal
            rw [← hsu]
            exact Bool.eq_false_iff.mpr ht
          exact ⟨_, key, rfl, rfl, rfl, Or.inr ⟨hrun, rfl⟩⟩
        · rw [if_neg hc] at key
          exact ⟨s, key, rfl, rfl, rfl, Or.inl rfl⟩
  | killPid q =>
    have key := findSession_condMap (fun t => t.pid = q ∧ t.status = Status.running)
      (fun t => { t with status := Status.terminated }) (fun t => rfl) r id s h
    by_cases hc : s.pid = q ∧ s.status = Status.running
    · rw [if_pos hc] at key
      exact ⟨_, key, rfl, rfl, rfl, Or.inr ⟨hc.2, rfl⟩⟩
    · rw [if_neg hc] at key
      exact ⟨s, key, rfl, rfl, rfl, Or.inl rfl⟩
  | produce i oc ec =>
    have key := findSession_condMap (fun t => t.sid = i ∧ t.status = Status.running)
      (fun t => { t with stdoutBuf := t.stdoutBuf ++ oc, stderrBuf := t.stderrBuf ++ ec })
      (fun t => rfl) r id s h
    by_cases hc : s.sid = i ∧ s.status = Status.running
    · rw [if_pos hc] at key
      exact ⟨_, key, rfl, rfl, rfl, Or.inl rfl⟩
    · rw [if_neg hc] at key
      exact ⟨s, key, rfl, rfl, rfl, Or.inl rfl⟩
  | readOut i =>
    show ∃ s2, findSession (applyRegOp r (RegOp.readOut i)) id = some s2 ∧ _
    cases hfi : findSession r i with
    | none =>
      simp only [applyRegOp, readOutputReg, hfi]
      exact ⟨s, h, rfl, rfl, rfl, Or.inl rfl⟩
    | some u =>
      simp only [applyRegOp, readOutputReg, hfi]
      have key := findSession_condMap (fun t => t.sid = i)
        (fun t => (readOutputSession t).1) (fun t => rfl) r id s h
      by_cases hc : s.sid = i
      · rw [if_pos hc] at key
        exact ⟨_, key, rfl, rfl, rfl, Or.inl rfl⟩
      · rw [if_neg hc] at key
        exact ⟨s, key, rfl, rfl, rfl, Or.inl rfl⟩
  | execTimeout cmd pid now oc ec =>
    exact ⟨s, findSession_append_left h _, rfl, rfl, rfl, Or.inl rfl⟩

theorem applyRegOps_lookup (ops : List RegOp) (r : Registry) (id : Nat) (s : Session)
    (h : findSession r id = some s) :
    ∃ s2, findSession (applyRegOps r ops) id = some s2
      ∧ s2.sid = s.sid ∧ s2.command = s.command ∧ s2.pid = s.pid
      ∧ (s2.status = s.status ∨ (s.status = Status.running ∧ s2.status.isTerminal = true)) := by
  induction ops generalizing r s with
  | nil => exact ⟨s, h, rfl, rfl, rfl, Or.inl rfl⟩
  | cons op ops ih =>
    obtain ⟨s1, h1, hsid1, hcmd1, hpid1, hrel1⟩ := applyRegOp_lookup op r id s h
    obtain ⟨s2, h2, hsid2, hcmd2, hpid2, hrel2⟩ := ih (applyRegOp r op) s1 h1
    refine ⟨s2, by simpa [applyRegOps] using h2,
      hsid2.trans hsid1, hcmd2.trans hcmd1, hpid2.trans hpid1, ?_⟩
    rcases hrel1 with he1 | ⟨hr1, ht1⟩
    · rcases hrel2 with he2 | ⟨hr2, ht2⟩
      · exact Or.inl (he2.trans he1)
      · exact Or.inr ⟨he1 ▸ hr2, ht2⟩
    · rcases hrel2 with he2 | ⟨hr2, ht2⟩
      · exact Or.inr ⟨hr1, he2 ▸ ht1⟩
      · rw [hr2] at ht1
        simp [Status.isTerminal] at ht1

theorem applyRegOp_preserves_running (op : RegOp) (r : Registry) (id p : Nat) (s : Session)
    (h : findSession r id = some s) (hrun : s.status = Status.running) (hp : s.pid = p)
    (hop : endsSession id p op = false) :
    ∃ s2, findSession (applyRegOp r op) id = some s2
      ∧ s2.sid = s.sid ∧ s2.pid = p ∧ s2.status = Status.running := by
  cases op with
  | exitCb i code =>
    have hne : ¬ i = id := by simpa [endsSession] using hop
    have key := findSession_condMap (fun t => t.sid = i ∧ t.status = Status.running)
      (fun t =>
        { t with
          status := (if code = 0 then Status.completed else Status.failed),
          exitCode := some code })
      (fun t => rfl) r id s h
    have hc : ¬ (s.sid = i ∧ s.status = Status.running) := by
      intro hcon
      exact hne ((findSession_sid h ▸ hcon.1).symm ▸ rfl)
    rw [if_neg hc] at key
    exact ⟨s, key, rfl, hp, hrun⟩
  | term i =>
    have hne : ¬ i = id := by simpa [endsSession] using hop
    show ∃ s2, findSession (applyRegOp r (RegOp.term i)) id = some s2 ∧ _
    cases hfi : findSession r i with
    | none =>
      simp only [applyRegOp, terminate, hfi]
      exact ⟨s, h, rfl, hp, hrun⟩
    | some u =>
      by_cases ht : u.status.isTerminal = true
      · simp only [applyRegOp, terminate, hfi, ht, if_pos]
        exact ⟨s, h, rfl, hp, hrun⟩
      · have hterm : terminate r i
            = Except.ok
              (r.map (fun t => if t.sid = i then { t with status := Status.terminated } else t),
               false) := by
          simp [terminate, hfi, ht]
        simp only [applyRegOp, hterm]
        have key := findSession_condMap (fun t => t.sid = i)
          (fun t => { t with status := Status.terminated }) (fun t => rfl) r id s h
        have hc : ¬ s.sid = i := by
          intro hcon
          exact hne (((findSession_sid h).symm.trans hcon).symm)
        rw [if_neg hc] at key
        exact ⟨s, key, rfl, hp, hrun⟩
  | killPid q =>
    have hne : ¬ q = p := by simpa [endsSession] using hop
    have key := findSession_condMap (fun t => t.pid = q ∧ t.status = Status.running)
      (fun t => { t with status := Status.terminated }) (fun t => rfl) r id s h
    have hc : ¬ (s.pid = q ∧ s.status = Status.running) := by
      intro hcon
      exact hne (hp ▸ hcon.1.symm)
    rw [if_neg hc] at key
    exact ⟨s, key, rfl, hp, hrun⟩
  | produce i oc ec =>
    have key := findSession_condMap (fun t => t.sid = i ∧ t.status = Status.running)
      (fun t => { t with stdoutBuf := t.stdoutBuf ++ oc, stderrBuf := t.stderrBuf ++ ec })
      (fun t => rfl) r id s h
    by_cases hc : s.sid = i ∧ s.status = Status.running
    · rw [if_pos hc] at key
      exact ⟨_, key, rfl, hp, hrun⟩
    · rw [if_neg hc] at key
      exact ⟨s, key, rfl, hp, hrun⟩
  | readOut i =>
    show ∃ s2, findSession (applyRegOp r (RegOp.readOut i)) id = some s2 ∧ _
    cases hfi : findSession r i with
    | none =>
      simp only [applyRegOp, readOutputReg, hfi]
      exact ⟨s, h, rfl, hp, hrun⟩
    | some u =>
      simp only [applyRegOp, readOutputReg, hfi]
      have key := findSession_condMap (fun t => t.sid = i)
        (fun t => (readOutputSession t).1) (fun t => rfl) r id s h
      by_cases hc : s.sid = i
      · rw [if_pos hc] at key
        exact ⟨_, key, rfl, hp, hrun⟩
      · rw [if_neg hc] at key
        exact ⟨s, key, rfl, hp, hrun⟩
  | execTimeout cmd pid now oc ec =>
    exact ⟨s, findSession_append_left h _, rfl, hp, hrun⟩

theorem applyRegOps_preserves_running (ops : List RegOp) (r : Registry) (id p : Nat)
    (s : Session) (h : findSession r id = some s) (hrun : s.status = Status.running)
    (hp : s.pid = p) (hops : ∀ op ∈ ops, endsSession id p op = false) :
    ∃ s2, findSession (applyRegOps r ops) id = some s2
      ∧ s2.sid = s.sid ∧ s2.pid = p ∧ s2.status = Status.running := by
  induction ops generalizing r s with
  | nil => exact ⟨s, h, rfl, hp, hrun⟩
  | cons op ops ih =>
    obtain ⟨s1, h1, hsid1, hp1, hrun1⟩ :=
      applyRegOp_preserves_running op r id p s h hrun hp (hops op (List.mem_cons_self _ _))
    obtain ⟨s2, h2, hsid2, hp2, hrun2⟩ :=
      ih (applyRegOp r op) s1 h1 hrun1 hp1 (fun o ho => hops o (List.mem_cons_of_mem _ ho))
    exact ⟨s2, by simpa [applyRegOps] using h2, hsid2.trans hsid1, hp2, hrun2⟩

/-- C2: when the spawned process has not exited as timeoutMs elapses, execute
returns a Running result carrying a fresh sessionId and exactly the output
accumulated so far; the new session is registered with status Running, its
buffers keep growing as the background process produces output, and it stays
Running in the Registry through any sequence of later registry events that
does not end it (its natural-exit callback, a terminate call on it, or a kill
of its pid). -/
theorem executeTimeout_running_contract (r : Registry) (cmd : String)
    (pid now : Nat) (oc ec : List Char) (ops : List RegOp)
    (hops : ∀ op ∈ ops,
        endsSession (executeTimeout r cmd pid now oc ec).2.sessionId pid op = false) :
    (executeTimeout r cmd pid now oc ec).2.stdoutSoFar = oc
    ∧ (executeTimeout r cmd pid now oc ec).2.stderrSoFar = ec
    ∧ findSession r (executeTimeout r cmd pid now oc ec).2.sessionId = none
    ∧ findSession (executeTimeout r cmd pid now oc ec).1
        (executeTimeout r cmd pid now oc ec).2.sessionId
        = some (freshSession r cmd pid now oc ec)
    ∧ (freshSession r cmd pid now oc ec).status = Status.running
    ∧ (∀ (r2 : Registry) (s : Session) (oc2 ec2 : List Char),
        findSession r2 (executeTimeout r cmd pid now oc ec).2.sessionId = some s →
        s.status = Status.running →
        findSession (produceOutput r2 (executeTimeout r cmd pid now oc ec).2.sessionId oc2 ec2)
            (executeTimeout r cmd pid now oc ec).2.sessionId
          = some { s with stdoutBuf := s.stdoutBuf ++ oc2, stderrBuf := s.stderrBuf ++ ec2 })
    ∧ (∃ s2, findSession (applyRegOps (executeTimeout r cmd pid now oc ec).1 ops)
          (executeTimeout r cmd pid now oc ec).2.sessionId = some s2
        ∧ s2.status = Status.running ∧ s2.pid = pid) := by
  have hid : (executeTimeout r cmd pid now oc ec).2.sessionId = freshId r := rfl
  refine ⟨rfl, rfl, ?_, ?_, rfl, ?_, ?_⟩
  · rw [hid]
    exact findSession_freshId r
  · rw [hid]
    exact executeTimeout_find r cmd pid now oc ec
  · intro r2 s oc2 ec2 hs hrun
    have key := findSession_condMap
      (fun t => t.sid = (executeTimeout r cmd pid now oc ec).2.sessionId
        ∧ t.status = Status.running)
      (fun t => { t with stdoutBuf := t.stdoutBuf ++ oc2, stderrBuf := t.stderrBuf ++ ec2 })
      (fun t => rfl) r2 (executeTimeout r cmd pid now oc ec).2.sessionId s hs
    rw [if_pos ⟨findSession_sid hs, hrun⟩] at key
    exact key
  · obtain ⟨s2, h2, _, hp2, hrun2⟩ := applyRegOps_preserves_running ops
      (executeTimeout r cmd pid now oc ec).1
      (executeTimeout r cmd pid now oc ec).2.sessionId pid
      (freshSession r cmd pid now oc ec)
      (by rw [hid]; exact executeTimeout_find r cmd pid now oc ec) rfl rfl hops
    exact ⟨s2, h2, hrun2, hp2⟩

theorem executeTimeout_running_contract_witness :
    (∀ op ∈ sampleRegOps,
        endsSession (executeTimeout [] "sleep 30" 42 5 "pa".toList []).2.sessionId 42 op = false)
    ∧ ((executeTimeout [] "sleep 30" 42 5 "pa".toList []).2.stdoutSoFar = "pa".toList
        ∧ (∃ s2, findSession
              (applyRegOps (executeTimeout [] "sleep 30" 42 5 "pa".toList []).1 sampleRegOps)
              (executeTimeout [] "sleep 30" 42 5 "pa".toList []).2.sessionId = some s2
            ∧ s2.status = Status.running ∧ s2.pid = 42)) := by
  have happ := executeTimeout_running_contract [] "sleep 30" 42 5 "pa".toList [] sampleRegOps
    (by decide)
  exact ⟨by decide, happ.1, happ.2.2.2.2.2.2⟩

/-- C3: terminate fails with NotFound exactly when the id is unknown to the
Registry; on a session already in a terminal state it returns
alreadyFinished and changes nothing, so that calling terminate twice is the
same as calling it once; and on a Running session the call ends with the
session Terminated. -/
theorem terminate_contract (r : Registry) (id : Nat) :
    (terminate r id = Except.error TermError.notFound ↔ findSession r id = none)
    ∧ (∀ s, findSession r id = some s → s.status.isTerminal = true →
        terminate r id = Except.ok (r, true))
    ∧ (∀ s, findSession r id = some s → s.status = Status.running →
        ∃ r2, terminate r id = Except.ok (r2, false)
          ∧ ∃ s2, findSession r2 id = some s2 ∧ s2.status = Status.terminated)
    ∧ (∀ r2 b, terminate r id = Except.ok (r2, b) → terminate r2 id = Except.ok (r2, true)) := by
  refine ⟨?_, ?_, ?_, ?_⟩
  · cases hf : findSession r id with
    | none => simp [terminate, hf]
    | some s => by_cases ht : s.status.isTerminal = true <;> simp [terminate, hf, ht]
  · intro s hf ht
    simp [terminate, hf, ht]
  · intro s hf hrun
    have ht : s.status.isTerminal = false := by rw [hrun]; rfl
    have hterm : terminate r id
        = Except.ok
          (r.map (fun t => if t.sid = id then { t with status := Status.terminated } else t),
           false) := by
      simp [terminate, hf, ht]
    refine ⟨_, hterm, ?_⟩
    have key := findSession_condMap (fun t => t.sid = id)
      (fun t => { t with status := Status.terminated }) (fun t => rfl) r id s hf
    rw [if_pos (findSession_sid hf)] at key
    exact ⟨_, key, rfl⟩
  · intro r2 b hok
    cases hf : findSession r id with
    | none => simp [terminate, hf] at hok
    | some s =>
      by_cases ht : s.status.isTerminal = true
      · have heq : r = r2 ∧ true = b := by simpa [terminate, hf, ht] using hok
        rw [← heq.1]
        simp [terminate, hf, ht]
      · have heq :
            r.map (fun t => if t.sid = id then { t with status := Status.terminated } else t)
              = r2 ∧ false = b := by
          simpa [terminate, hf, ht] using hok
        have key := findSession_condMap (fun t => t.sid = id)
          (fun t => { t with status := Status.terminated }) (fun t => rfl) r id s hf
        rw [if_pos (findSession_sid hf)] at key
        rw [heq.1] at key
        simp [terminate, key, Status.isTerminal]

theorem terminate_contract_witness :
    findSession sampleReg 1 = some sampleSession
    ∧ sampleSession.status = Status.running
    ∧ (∃ r2, terminate sampleReg 1 = Except.ok (r2, false)
        ∧ ∃ s2, findSession r2 1 = some s2 ∧ s2.status = Status.terminated) :=
  ⟨rfl, rfl, (terminate_contract sampleReg 1).2.2.1 sampleSession rfl rfl⟩

/-- C4: every session starts Running when it is registered and its status
makes at most one transition ever, to exactly one of the terminal states: no
registry event (exit callback, terminate, kill reconciliation, output
production, readOutput, execute) moves a session out of a terminal state, and
any status change over any sequence of events is a single Running-to-terminal
step. -/
theorem status_single_transition (r : Registry) (id : Nat) (s : Session) (ops : List RegOp)
    (h : findSession r id = some s) :
    (∃ s2, findSession (applyRegOps r ops) id = some s2
      ∧ (s2.status = s.status ∨ (s.status = Status.running ∧ s2.status.isTerminal = true))
      ∧ (s.status.isTerminal = true → s2.status = s.status))
    ∧ (∀ cmd pid now oc ec,
        findSession (executeTimeout r cmd pid now oc ec).1
            (executeTimeout r cmd pid now oc ec).2.sessionId
          = some (freshSession r cmd pid now oc ec)
        ∧ (freshSession r cmd pid now oc ec).status = Status.running) := by
  constructor
  · obtain ⟨s2, h2, _, _, _, hrel⟩ := applyRegOps_lookup ops r id s h
    refine ⟨s2, h2, hrel, ?_⟩
    intro hterm
    rcases hrel with he | ⟨hr, _⟩
    · exact he
    · rw [hr] at hterm
      simp [Status.isTerminal] at hterm
  · intro cmd pid now oc ec
    exact ⟨executeTimeout_find r cmd pid now oc ec, rfl⟩

theorem status_single_transition_witness :
    findSession sampleReg 2 = some doneSession
    ∧ doneSession.status.isTerminal = true
    ∧ (∃ s2, findSession (applyRegOps sampleReg [RegOp.term 2, RegOp.killPid 43]) 2 = some s2
        ∧ s2.status = doneSession.status) := by
  obtain ⟨s2, hf, _, hterm⟩ :=
    (status_single_transition sampleReg 2 doneSession [RegOp.term 2, RegOp.killPid 43] rfl).1
  exact ⟨rfl, rfl, s2, hf, hterm rfl⟩

/-- C5: listSessions returns exactly the sessions whose status is Running at
the moment of the call and never contains a session whose status is
Completed, Terminated or Failed. -/
theorem listSessions_running_snapshot (r : Registry) (now : Nat) :
    (∀ info, info ∈ listSessions r now ↔
        ∃ s, s ∈ r ∧ s.status = Status.running ∧ sessionInfoOf now s = info)
    ∧ (∀ info ∈ listSessions r now, info.sstatus = Status.running)
    ∧ (∀ info ∈ listSessions r now,
        info.sstatus ≠ Status.completed ∧ info.sstatus ≠ Status.terminated
          ∧ info.sstatus ≠ Status.failed) := by
  have hmem : ∀ info, info ∈ listSessions r now ↔
      ∃ s, s ∈ r ∧ s.status = Status.running ∧ sessionInfoOf now s = info := by
    intro info
    simp [listSessions, List.mem_map, List.mem_filter, and_assoc]
  refine ⟨hmem, ?_, ?_⟩
  · intro info hin
    obtain ⟨s, _, hs, hproj⟩ := (hmem info).mp hin
    rw [← hproj]
    simp [sessionInfoOf, hs]
  · intro info hin
    obtain ⟨s, _, hs, hproj⟩ := (hmem info).mp hin
    rw [← hproj]
    simp [sessionInfoOf, hs]

theorem listSessions_running_snapshot_witness :
    sessionInfoOf 7 sampleSession ∈ listSessions sampleReg 7
    ∧ (sessionInfoOf 7 sampleSession).sstatus = Status.running := by
  have hmem := ((listSessions_running_snapshot sampleReg 7).1 (sessionInfoOf 7 sampleSession)).mpr
    ⟨sampleSession, by simp [sampleReg], rfl, rfl⟩
  exact ⟨hmem, (listSessions_running_snapshot sampleReg 7).2.1 _ hmem⟩

/-- C6: the Validator splits the command line on the shell-chaining operators
into sub-commands, extracts each leading executable token stripped of any
path, compares it case-insensitively with the blocked patterns, and one match
rejects the whole line with a ValidationError before any process is spawned:
the outcome is an error independent of the spawn interface, which is never
invoked. -/
theorem validator_blocks_before_spawn (line : String) (blocked : List String) :
    (commandBlocked line blocked = true ↔
      ∃ sub ∈ splitSubCommands line, ∃ p ∈ blocked,
        lowerChars (stripPath (leadingToken sub)) = lowerChars p.toList)
    ∧ (commandBlocked line blocked = true →
        ∀ (α : Type) (r : Registry) (spawnA spawnB : Registry → String → Registry × α),
          executeGate r blocked line spawnA = Except.error "ValidationError: command blocked"
          ∧ executeGate r blocked line spawnA = executeGate r blocked line spawnB)
    ∧ (commandBlocked line blocked = false →
        ∀ (α : Type) (r : Registry) (spawnA : Registry → String → Registry × α),
          executeGate r blocked line spawnA = Except.ok (spawnA r line)) := by
  refine ⟨?_, ?_, ?_⟩
  · simp [commandBlocked, List.any_eq_true]
  · intro hb α r spawnA spawnB
    constructor <;> simp [executeGate, hb]
  · intro hb α r spawnA
    simp [executeGate, hb]

theorem validator_blocks_before_spawn_witness :
    commandBlocked "echo hi && rm -rf /" ["rm"] = true
    ∧ executeGate ([] : Registry) ["rm"] "echo hi && rm -rf /"
        (fun r line => (r ++ [freshSession r line 9 9 [] []], freshId r))
      = Except.error "ValidationError: command blocked" := by
  have hb : commandBlocked "echo hi && rm -rf /" ["rm"] = true := by decide
  exact ⟨hb, ((validator_blocks_before_spawn "echo hi && rm -rf /" ["rm"]).2.1 hb Nat []
    (fun r line => (r ++ [freshSession r line 9 9 [] []], freshId r))
    (fun r line => (r ++ [freshSession r line 9 9 [] []], freshId r))).1⟩

/-- C7: the call handler never propagates an exception to the transport: a
normal dispatch result is returned as is, any error a dispatched handler
raises is caught and returned as a result value with isError true carrying
the textual message, and the two configuration cases convert their own
failures to their fixed error result values. -/
theorem call_handler_errors_are_values {α : Type} (h : Handlers α) (name : String)
    (args : α) (e : String) :
    (dispatchToolCall h name args = Except.error e →
      handleCallTool h name args
        = { content := [{ ctype := "text", text := "Error: " ++ e }], isError := true })
    ∧ (∀ res, dispatchToolCall h name args = Except.ok res → handleCallTool h name args = res)
    ∧ (h.getConfig = Except.error e →
        handleCallTool h "get_config" args
          = { content := [{ ctype := "text", text := "Error: Failed to get configuration" }],
              isError := true })
    ∧ (h.setConfigValue args = Except.error e →
        handleCallTool h "set_config_value" args
          = { content := [{ ctype := "text",
                            text := "Error: Failed to set configuration value" }],
              isError := true }) := by
  refine ⟨?_, ?_, ?_, ?_⟩
  · intro hd
    simp [handleCallTool, hd]
  · intro res hd
    simp [handleCallTool, hd]
  · intro hg
    simp [handleCallTool, dispatchToolCall, hg]
  · intro hs
    simp [handleCallTool, dispatchToolCall, hs]

theorem call_handler_errors_are_values_witness :
    dispatchToolCall demoFailingHandlers "read_file" () = Except.error "boom"
    ∧ handleCallTool demoFailingHandlers "read_file" ()
      = { content := [{ ctype := "text", text := "Error: " ++ "boom" }], isError := true }
    ∧ handleCallTool demoFailingHandlers "get_config" ()
      = { content := [{ ctype := "text", text := "Error: Failed to get configuration" }],
          isError := true } := by
  have hd : dispatchToolCall demoFailingHandlers "read_file" () = Except.error "boom" := rfl
  exact ⟨hd, (call_handler_errors_are_values demoFailingHandlers "read_file" () "boom").1 hd,
    (call_handler_errors_are_values demoFailingHandlers "get_config" () "boom").2.2.1 rfl⟩

/-- C8: the six session-manager operations are exposed to the tool-call
transport under the names execute_command, read_output, force_terminate,
list_sessions, list_processes and kill_process; each of these names is
dispatched to its dedicated handler, and a normal handler result is returned
to the transport unchanged. -/
theorem tool_interface_dispatch {α : Type} (h : Handlers α) (args : α) (res : ServerResult) :
    ("execute_command" ∈ serverToolNames ∧ "read_output" ∈ serverToolNames
      ∧ "force_terminate" ∈ serverToolNames ∧ "list_sessions" ∈ serverToolNames
      ∧ "list_processes" ∈ serverToolNames ∧ "kill_process" ∈ serverToolNames)
    ∧ (dispatchToolCall h "execute_command" args = h.handleExecuteCommand args
      ∧ dispatchToolCall h "read_output" args = h.handleReadOutput args
      ∧ dispatchToolCall h "force_terminate" args = h.handleForceTerminate args
      ∧ dispatchToolCall h "list_sessions" args = h.handleListSessions
      ∧ dispatchToolCall h "list_processes" args = h.handleListProcesses
      ∧ dispatchToolCall h "kill_process" args = h.handleKillProcess args)
    ∧ ((h.handleExecuteCommand args = Except.ok res →
          handleCallTool h "execute_command" args = res)
      ∧ (h.handleReadOutput args = Except.ok res →
          handleCallTool h "read_output" args = res)
      ∧ (h.handleForceTerminate args = Except.ok res →
          handleCallTool h "force_terminate" args = res)
      ∧ (h.handleListSessions = Except.ok res →
          handleCallTool h "list_sessions" args = res)
      ∧ (h.handleListProcesses = Except.ok res →
          handleCallTool h "list_processes" args = res)
      ∧ (h.handleKillProcess args = Except.ok res →
          handleCallTool h "kill_process" args = res)) := by
  refine ⟨⟨by decide, by decide, by decide, by decide, by decide, by decide⟩,
    ⟨rfl, rfl, rfl, rfl, rfl, rfl⟩, ?_, ?_, ?_, ?_, ?_, ?_⟩
  all_goals intro hh
  all_goals simp [handleCallTool, dispatchToolCall, hh]

theorem tool_interface_dispatch_witness :
    demoOkHandlers.handleExecuteCommand () = Except.ok demoOk
    ∧ handleCallTool demoOkHandlers "execute_command" () = demoOk
    ∧ handleCallTool demoOkHandlers "list_sessions" () = demoOk :=
  ⟨rfl, (tool_interface_dispatch demoOkHandlers () demoOk).2.2.1 rfl,
    (tool_interface_dispatch demoOkHandlers () demoOk).2.2.2.2.2.1 rfl⟩

/-- C9 counterexample: the dispatch switch of the call handler has eighteen
named tool cases, not seventeen as the claim states. -/
theorem dispatched_tool_count_refutes_seventeen :
    dispatchedToolNames.length = 18 ∧ ¬ dispatchedToolNames.length = 17 :=
  ⟨rfl, by decide⟩

/-- C9 (amended): for every tool-call request whose name is not one of the
eighteen dispatched tool names, the call handler returns a result whose
content is the text "Error: Unknown tool: " followed by the requested name
with isError true, and performs no other action: the result is independent of
the handler environment and the arguments. -/
theorem unknown_tool_error {α : Type} (h hB : Handlers α) (name : String) (args argsB : α)
    (hname : name ∉ dispatchedToolNames) :
    handleCallTool h name args
      = { content := [{ ctype := "text", text := "Error: Unknown tool: " ++ name }],
          isError := true }
    ∧ handleCallTool h name args = handleCallTool hB name argsB := by
  simp only [dispatchedToolNames, List.mem_cons, List.mem_singleton, not_or] at hname
  obtain ⟨e1, e2, e3, e4, e5, e6, e7, e8, e9, e10, e11, e12, e13, e14, e15, e16, e17, e18⟩ :=
    hname
  constructor
  · simp [handleCallTool, dispatchToolCall,
      e1, e2, e3, e4, e5, e6, e7, e8, e9, e10, e11, e12, e13, e14, e15, e16, e17, e18]
  · simp [handleCallTool, dispatchToolCall,
      e1, e2, e3, e4, e5, e6, e7, e8, e9, e10, e11, e12, e13, e14, e15, e16, e17, e18]

theorem unknown_tool_error_witness :
    ("made_up_tool" ∉ dispatchedToolNames)
    ∧ handleCallTool demoOkHandlers "made_up_tool" ()
      = { content := [{ ctype := "text", text := "Error: Unknown tool: " ++ "made_up_tool" }],
          isError := true } := by
  have hn : ("made_up_tool" : String) ∉ dispatchedToolNames := by decide
  exact ⟨hn, (unknown_tool_error demoOkHandlers demoFailingHandlers "made_up_tool" () () hn).1⟩

theorem lookupKey_setKey_self (o : List (String × JValue)) (k : String) (v : JValue) :
    lookupKey (setKey o k v) k = some v := by
  induction o with
  | nil => simp [setKey, lookupKey]
  | cons p o ih =>
    by_cases hp : p.1 = k
    · simp [setKey, hp, lookupKey]
    · simp only [setKey, hp, if_neg, ite_false]
      simp only [lookupKey] at ih ⊢
      rw [List.find?_cons_of_neg _ (by simpa using hp)]
      exact ih

theorem lookupKey_setKey_ne (o : List (String × JValue)) (k j : String) (v : JValue)
    (hij : j ≠ k) : lookupKey (setKey o k v) j = lookupKey o j := by
  have hkj : ¬ (k = j) := fun hh => hij hh.symm
  induction o with
  | nil => simp [setKey, lookupKey, hkj]
  | cons p o ih =>
    by_cases hp : p.1 = k
    · have hpj : ¬ (p.1 = j) := fun hh => hij (hh.symm.trans hp)
      simp only [setKey, hp, ite_true, lookupKey]
      rw [List.find?_cons_of_neg _ (by simpa using hkj),
        List.find?_cons_of_neg _ (by simpa using hpj)]
    · simp only [setKey, hp, ite_false, lookupKey]
      by_cases hpj : p.1 = j
      · rw [List.find?_cons_of_pos _ (by simpa using hpj),
          List.find?_cons_of_pos _ (by simpa using hpj)]
      · rw [List.find?_cons_of_neg _ (by simpa using hpj),
          List.find?_cons_of_neg _ (by simpa using hpj)]
        exact ih

theorem lookupKey_delKey_self (o : List (String × JValue)) (k : String) :
    lookupKey (delKey o k) k = none := by
  induction o with
  | nil => rfl
  | cons p o ih =>
    by_cases hp : p.1 = k
    · simpa [delKey, hp] using ih
    · simp only [delKey, List.filter_cons] at ih ⊢
      rw [if_pos (by simpa using hp)]
      simp only [lookupKey] at ih ⊢
      rw [List.find?_cons_of_neg _ (by simpa using hp)]
      exact ih

theorem lookupKey_delKey_ne (o : List (String × JValue)) (k j : String) (hij : j ≠ k) :
    lookupKey (delKey o k) j = lookupKey o j := by
  induction o with
  | nil => rfl
  | cons p o ih =>
    by_cases hp : p.1 = k
    · have hpj : ¬ (p.1 = j) := fun hh => hij (hh.symm.trans hp)
      simp only [delKey, List.filter_cons] at ih ⊢
      rw [if_neg (by simpa using hp)]
      simp only [lookupKey] at ih ⊢
      rw [List.find?_cons_of_neg _ (by simpa using hpj)]
      exact ih
    · simp only [delKey, List.filter_cons] at ih ⊢
      rw [if_pos (by simpa using hp)]
      simp only [lookupKey] at ih ⊢
      by_cases hpj : p.1 = j
      · rw [List.find?_cons_of_pos _ (by simpa using hpj),
          List.find?_cons_of_pos _ (by simpa using hpj)]
      · rw [List.find?_cons_of_neg _ (by simpa using hpj),
          List.find?_cons_of_neg _ (by simpa using hpj)]
        exact ih

theorem mcpFields_eq_none {v : JValue} (h : mcpFields v = none) :
    jTruthy v = true ∧ ∀ m, v ≠ JValue.obj m := by
  cases v with
  | obj m2 => simp [mcpFields] at h
  | null => simp [mcpFields, jTruthy] at h
  | bool b =>
    cases b
    · simp [mcpFields, jTruthy] at h
    · exact ⟨rfl, fun m hc => JValue.noConfusion hc⟩
  | num n =>
    by_cases hn : n = 0
    · subst hn
      simp [mcpFields, jTruthy] at h
    · exact ⟨by simp [jTruthy, hn], fun m hc => JValue.noConfusion hc⟩
  | str s =>
    by_cases hs : s = ""
    · subst hs
      simp [mcpFields, jTruthy] at h
    · exact ⟨by simp [jTruthy, hs], fun m hc => JValue.noConfusion hc⟩
  | arr xs => exact ⟨rfl, fun m hc => JValue.noConfusion hc⟩

theorem mcpFields_eq_some {v : JValue} {m : List (String × JValue)}
    (h : mcpFields v = some m) :
    v = JValue.obj m ∨ (jTruthy v = false ∧ m = []) := by
  cases v with
  | obj m2 =>
    left
    simp [mcpFields] at h
    rw [h]
  | null =>
    right
    simp [mcpFields, jTruthy] at h
    exact ⟨rfl, h⟩
  | bool b =>
    cases b
    · right
      simp [mcpFields, jTruthy] at h
      exact ⟨rfl, h⟩
    · simp [mcpFields, jTruthy] at h
  | num n =>
    by_cases hn : n = 0
    · subst hn
      right
      simp [mcpFields, jTruthy] at h
      exact ⟨rfl, h⟩
    · simp [mcpFields, jTruthy, hn] at h
  | str s =>
    by_cases hs : s = ""
    · subst hs
      right
      simp [mcpFields, jTruthy] at h
      exact ⟨rfl, h⟩
    · simp [mcpFields, jTruthy, hs] at h
  | arr xs => simp [mcpFields, jTruthy] at h

theorem setupUpdateConfig_fallback (config : List (String × JValue)) (serverCfg : JValue)
    (hT : jTruthy ((lookupKey config "mcpServers").getD JValue.null) = true)
    (hno : ∀ m, (lookupKey config "mcpServers").getD JValue.null ≠ JValue.obj m) :
    setupUpdateConfig config serverCfg = config := by
  have h1 : (if jTruthy ((lookupKey config "mcpServers").getD JValue.null) = true then config
      else setKey config "mcpServers" (JValue.obj [])) = config := by
    rw [hT]
    simp
  simp only [setupUpdateConfig]
  rw [h1]
  cases hmv : (lookupKey config "mcpServers").getD JValue.null with
  | obj m => exact absurd hmv (hno m)
  | null => rfl
  | bool b => rfl
  | num n => rfl
  | str s => rfl
  | arr xs => rfl

/-- C10 counterexample: the claim fails on the code at two pre-existing
configurations: a present but falsy desktopCommander entry is written back
unchanged instead of deleted, and a truthy non-object mcpServers value leaves
the configuration content entirely unchanged with no desktop-commander entry
installed. -/
theorem setup_rewrite_claim_cex :
    (mcpEntry cfg0 "desktopCommander" = some (JValue.bool false)
      ∧ mcpEntry (setupUpdateConfig cfg0 scfg0) "desktopCommander" = some (JValue.bool false)
      ∧ mcpEntry (setupUpdateConfig cfg0 scfg0) "desktopCommander" ≠ none)
    ∧ (lookupKey cfgStr "mcpServers" = some (JValue.str "oops")
      ∧ setupUpdateConfig cfgStr scfg0 = cfgStr
      ∧ mcpEntry (setupUpdateConfig cfgStr scfg0) "desktop-commander" = none) := by
  have h2 : mcpEntry (setupUpdateConfig cfg0 scfg0) "desktopCommander"
      = some (JValue.bool false) := rfl
  refine ⟨⟨rfl, h2, ?_⟩, rfl, rfl, rfl⟩
  rw [h2]
  exact fun hcon => Option.noConfusion hcon

/-- C10 (amended): for every pre-existing configuration, setup rewrites only
the mcpServers entries named desktopCommander (deleted exactly when present
with a truthy value, written back unchanged when present but falsy) and
desktop-commander (set to the computed server config), with every other key
of mcpServers and every other top-level field of the configuration object
written back unchanged; except that when the pre-existing mcpServers value is
truthy but not an object, the configuration content is left entirely
unchanged and no desktop-commander entry is installed.  The top-level frame
holds unconditionally; the full rewrite behavior holds whenever mcpServers is
absent, falsy (reset to an empty object) or an object. -/
theorem setup_frame_preservation (config : List (String × JValue)) (serverCfg : JValue) :
    (∀ k, k ≠ "mcpServers" →
        lookupKey (setupUpdateConfig config serverCfg) k = lookupKey config k)
    ∧ (∀ m, mcpFields ((lookupKey config "mcpServers").getD JValue.null) = some m →
        ∃ m2, lookupKey (setupUpdateConfig config serverCfg) "mcpServers"
            = some (JValue.obj m2)
          ∧ lookupKey m2 "desktop-commander" = some serverCfg
          ∧ (jTruthy ((lookupKey m "desktopCommander").getD JValue.null) = true →
              lookupKey m2 "desktopCommander" = none)
          ∧ (jTruthy ((lookupKey m "desktopCommander").getD JValue.null) = false →
              lookupKey m2 "desktopCommander" = lookupKey m "desktopCommander")
          ∧ (∀ k, k ≠ "desktopCommander" → k ≠ "desktop-commander" →
              lookupKey m2 k = lookupKey m k))
    ∧ (mcpFields ((lookupKey config "mcpServers").getD JValue.null) = none →
        setupUpdateConfig config serverCfg = config) := by
  have hdc : ("desktopCommander" : String) ≠ "desktop-commander" := by decide
  cases hmf : mcpFields ((lookupKey config "mcpServers").getD JValue.null) with
  | none =>
    obtain ⟨hT, hno⟩ := mcpFields_eq_none hmf
    have heq := setupUpdateConfig_fallback config serverCfg hT hno
    refine ⟨fun k hk => by rw [heq], fun m hm => ?_, fun _ => heq⟩
    exact Option.noConfusion hm
  | some m =>
    rcases mcpFields_eq_some hmf with hv | ⟨hT, hm0⟩
    · have hupd : setupUpdateConfig config serverCfg
          = setKey config "mcpServers"
              (JValue.obj (setKey
                (if jTruthy ((lookupKey m "desktopCommander").getD JValue.null) then
                  delKey m "desktopCommander"
                else m) "desktop-commander" serverCfg)) := by
        simp [setupUpdateConfig, hv, jTruthy]
      refine ⟨?_, ?_, ?_⟩
      · intro k hk
        rw [hupd]
        exact lookupKey_setKey_ne _ _ _ _ hk
      · intro m3 hm3
        have hmm : m = m3 := Option.some.inj hm3
        subst hmm
        refine ⟨_, by rw [hupd]; exact lookupKey_setKey_self _ _ _,
          lookupKey_setKey_self _ _ _, ?_, ?_, ?_⟩
        · intro htr
          rw [if_pos htr, lookupKey_setKey_ne _ _ _ _ hdc]
          exact lookupKey_delKey_self _ _
        · intro hfa
          rw [hfa]
          simp only [ite_false, Bool.false_eq_true, if_neg]
          exact lookupKey_setKey_ne _ _ _ _ hdc
        · intro k hk1 hk2
          rw [lookupKey_setKey_ne _ _ _ _ hk2]
          by_cases htr : jTruthy ((lookupKey m "desktopCommander").getD JValue.null) = true
          · rw [if_pos htr]
            exact lookupKey_delKey_ne _ _ _ hk1
          · rw [if_neg htr]
      · intro hnone
        exact Option.noConfusion hnone
    · subst hm0
      have hc1 : setupUpdateConfig config serverCfg
          = setKey (setKey config "mcpServers" (JValue.obj []))
              "mcpServers" (JValue.obj (setKey [] "desktop-commander" serverCfg)) := by
        simp only [setupUpdateConfig]
        rw [hT]
        simp [lookupKey_setKey_self]
        rfl
      refine ⟨?_, ?_, ?_⟩
      · intro k hk
        rw [hc1, lookupKey_setKey_ne _ _ _ _ hk, lookupKey_setKey_ne _ _ _ _ hk]
      · intro m3 hm3
        have hmm : ([] : List (String × JValue)) = m3 := Option.some.inj hm3
        subst hmm
        refine ⟨_, by rw [hc1]; exact lookupKey_setKey_self _ _ _,
          lookupKey_setKey_self _ _ _, ?_, ?_, ?_⟩
        · intro htr
          simp [lookupKey] at htr
          simp [jTruthy] at htr
        · intro _
          rfl
        · intro k hk1 hk2
          rw [lookupKey_setKey_ne _ _ _ _ hk2]
      · intro hnone
        exact Option.noConfusion hnone

theorem setup_frame_preservation_witness :
    mcpFields ((lookupKey cfg1 "mcpServers").getD JValue.null) = some mcp1
    ∧ jTruthy ((lookupKey mcp1 "desktopCommander").getD JValue.null) = true
    ∧ (∃ m2, lookupKey (setupUpdateConfig cfg1 scfg0) "mcpServers" = some (JValue.obj m2)
        ∧ lookupKey m2 "desktop-commander" = some scfg0
        ∧ lookupKey m2 "desktopCommander" = none
        ∧ lookupKey m2 "other-server" = lookupKey mcp1 "other-server"
        ∧ lookupKey (setupUpdateConfig cfg1 scfg0) "theme" = lookupKey cfg1 "theme")
    ∧ mcpFields ((lookupKey cfgStr "mcpServers").getD JValue.null) = none
    ∧ setupUpdateConfig cfgStr scfg0 = cfgStr := by
  obtain ⟨hframe, hgood, _⟩ := setup_frame_preservation cfg1 scfg0
  obtain ⟨m2, ha, hb, hc, _, he⟩ := hgood mcp1 rfl
  exact ⟨rfl, rfl,
    ⟨m2, ha, hb, hc rfl, he "other-server" (by decide) (by decide),
      hframe "theme" (by decide)⟩,
    rfl, (setup_frame_preservation cfgStr scfg0).2.2 rfl⟩

end DCM
